import Mathlib

/-!
Shallow embedding of the intcode virtual machine from `src/day9/src/main.rs`
(the most capable VM variant: 128-bit cells, relative addressing, dynamic
memory growth, pluggable I/O).  Memory cells (`i128`) are modelled as `Int`;
`usize`/`isize` casts, which wrap in the Rust code, are modelled explicitly
modulo `2^64`.  Panics in the Rust code are modelled as `Except.error`
values carrying the same data the panic message carries.  The scripted
`MockIo` input queue is modelled as a list of already-parsed integers and
the output log as the list of decimal strings written.
-/

set_option maxRecDepth 8000

deriving instance DecidableEq for Except

/-- Modulus of Rust's `usize` on a 64-bit target: `2^64`. -/
def USIZE_MOD : Int := 18446744073709551616

/-- Half of `USIZE_MOD`, i.e. `2^63`, the magnitude bound of `isize`. -/
def ISIZE_HALF : Int := 9223372036854775808

/-- Rust's `as usize` cast of an `i128` value: truncation modulo `2^64`. -/
def usizeOfInt (v : Int) : Nat := (v % USIZE_MOD).toNat

/-- Rust's `as isize` cast of an `i128` value: wrap into `[-2^63, 2^63)`. -/
def isizeOfInt (v : Int) : Int := (v + ISIZE_HALF) % USIZE_MOD - ISIZE_HALF

/-- Rust's `as isize` cast of a `usize` value. -/
def isizeOfNat (r : Nat) : Int := isizeOfInt (r : Int)

/-- The fatal conditions of the VM, each carrying the data that the
corresponding Rust panic message carries. -/
inductive VmErr where
  | oobFetch (idx : Nat)
  | badModeDigit (digit : Nat)
  | badOpcode (code : Int)
  | immediateWriteTarget
  | negRelBase
  | inputExhausted
  | capacityOverflow
deriving DecidableEq

/-- Addressing modes, mirroring `enum Mode` in day9: `Position` carries a
`usize`, `Immediate` an `i128`, `Relative` an `isize`. -/
inductive Mode where
  | Position (idx : Nat)
  | Immediate (val : Int)
  | Relative (off : Int)
deriving DecidableEq

/-- Direct slice indexing `mem[idx]` as used when fetching instruction and
parameter words: out of bounds is a panic (`VmErr.oobFetch`), never a
default value. -/
def fetchWord (mem : List Int) (idx : Nat) : Except VmErr Int :=
  if idx < mem.length then .ok (mem.getD idx 0) else .error (.oobFetch idx)

/-- The guarded read used by `Mode::val` for resolved operand addresses:
`if idx >= mem.len() { 0 } else { mem[idx] }`. -/
def readMem (mem : List Int) (idx : Nat) : Int :=
  if mem.length ≤ idx then 0 else mem.getD idx 0

/-- `Mode::from`: extract the addressing-mode digit `opCode / 10^off % 10`
from the (already `/ 100`-shifted) mode specifier and read the raw
parameter word `mem[idx + off]` by direct indexing.  Digits other than
0, 1, 2 are a fatal decode error. -/
def Mode.fromSpec (opCode : Nat) (mem : List Int) (idx off : Nat) :
    Except VmErr Mode :=
  let mode := opCode / 10 ^ off % 10
  match fetchWord mem (idx + off) with
  | .error e => .error e
  | .ok val =>
    if mode = 0 then .ok (.Position (usizeOfInt val))
    else if mode = 1 then .ok (.Immediate val)
    else if mode = 2 then .ok (.Relative (isizeOfInt val))
    else .error (.badModeDigit mode)

/-- `Mode::val`: resolve a parameter to a value for reading.  Positional and
relative reads beyond the current tape length return 0; the relative index
is `(relative as isize + offset) as usize`. -/
def Mode.val (m : Mode) (mem : List Int) (relative : Nat) : Int :=
  match m with
  | .Position idx => readMem mem idx
  | .Immediate v => v
  | .Relative off => readMem mem (usizeOfInt (isizeOfNat relative + off))

/-- `Mode::adr`: resolve a parameter to a write address.  Immediate
parameters are a fatal error (`panic!("Addresses in immediate mode not
supported")`). -/
def Mode.adr (m : Mode) (relative : Nat) : Except VmErr Nat :=
  match m with
  | .Position a => .ok a
  | .Relative off => .ok (usizeOfInt (isizeOfNat relative + off))
  | .Immediate _ => .error .immediateWriteTarget

/-- `enum Incr`: how the program counter advances after an instruction. -/
inductive Incr where
  | Offset (n : Nat)
  | Jump (adr : Nat)
  | Exit
deriving DecidableEq

/-- `enum OpCode`: the decoded instruction variants of day9. -/
inductive OpCode where
  | Add (r1 r2 o : Mode)
  | Mul (r1 r2 o : Mode)
  | Ipt (adr : Mode)
  | Opt (o : Mode)
  | Jtr (r1 jmp : Mode)
  | Jfl (r1 jmp : Mode)
  | Les (r1 r2 o : Mode)
  | Eql (r1 r2 o : Mode)
  | Crl (off : Mode)
  | Ext
deriving DecidableEq

/-- Resolve three parameters at positions 0, 1, 2 (in order, first failure
wins) and build a three-parameter opcode. -/
def modes3 (spec : Nat) (mem : List Int) (pidx : Nat)
    (ctor : Mode → Mode → Mode → OpCode) : Except VmErr OpCode :=
  match Mode.fromSpec spec mem pidx 0 with
  | .error e => .error e
  | .ok r1 =>
    match Mode.fromSpec spec mem pidx 1 with
    | .error e => .error e
    | .ok r2 =>
      match Mode.fromSpec spec mem pidx 2 with
      | .error e => .error e
      | .ok o => .ok (ctor r1 r2 o)

/-- Resolve two parameters at positions 0, 1 and build a two-parameter
opcode. -/
def modes2 (spec : Nat) (mem : List Int) (pidx : Nat)
    (ctor : Mode → Mode → OpCode) : Except VmErr OpCode :=
  match Mode.fromSpec spec mem pidx 0 with
  | .error e => .error e
  | .ok r1 =>
    match Mode.fromSpec spec mem pidx 1 with
    | .error e => .error e
    | .ok r2 => .ok (ctor r1 r2)

/-- Resolve one parameter at position 0 and build a one-parameter opcode. -/
def modes1 (spec : Nat) (mem : List Int) (pidx : Nat)
    (ctor : Mode → OpCode) : Except VmErr OpCode :=
  match Mode.fromSpec spec mem pidx 0 with
  | .error e => .error e
  | .ok m => .ok (ctor m)

/-- `OpCode::from`: decode the instruction at `idx`.  The instruction word
is fetched by direct indexing; `opcode = word % 100` (Rust's truncated
remainder) and `mode_spec = (word as usize) / 100`.  An opcode outside the
table is a fatal decode error carrying the offending value. -/
def OpCode.fromMem (mem : List Int) (idx : Nat) : Except VmErr OpCode :=
  match fetchWord mem idx with
  | .error e => .error e
  | .ok instruction =>
    let opCode := instruction.tmod 100
    let modeSpec := usizeOfInt instruction / 100
    let pidx := idx + 1
    if opCode = 1 then modes3 modeSpec mem pidx .Add
    else if opCode = 2 then modes3 modeSpec mem pidx .Mul
    else if opCode = 3 then modes1 modeSpec mem pidx .Ipt
    else if opCode = 4 then modes1 modeSpec mem pidx .Opt
    else if opCode = 5 then modes2 modeSpec mem pidx .Jtr
    else if opCode = 6 then modes2 modeSpec mem pidx .Jfl
    else if opCode = 7 then modes3 modeSpec mem pidx .Les
    else if opCode = 8 then modes3 modeSpec mem pidx .Eql
    else if opCode = 9 then modes1 modeSpec mem pidx .Crl
    else if opCode = 99 then .ok .Ext
    else .error (.badOpcode opCode)

/-- The largest number of `i128` elements a `Vec` can be asked to hold on a
64-bit target: `(2^63 - 1) / 16` (an allocation request above `isize::MAX`
bytes, at 16 bytes per element, is a deterministic `capacity overflow`
panic inside `Vec`, checked before any allocation is attempted). -/
def VEC_CAP_MAX : Nat := 576460752303423487

/-- `mem.resize(adr + 1, 0)` guarded by `adr >= mem.len()`: grow the tape,
zero-filled, to length `adr + 1` when the write address is at or beyond the
current length.  Asking for more than `VEC_CAP_MAX` elements is the fatal
`capacity overflow` panic of `Vec::resize`; this also covers
`adr = usize::MAX`, where in Rust `adr + 1` itself overflows `usize`
(a panic in debug, a truncate-then-index-out-of-bounds panic in release) —
every such case is a panic before any cell is written. -/
def growTo (mem : List Int) (adr : Nat) : Except VmErr (List Int) :=
  if mem.length ≤ adr then
    if adr + 1 ≤ VEC_CAP_MAX then
      .ok (mem ++ List.replicate (adr + 1 - mem.length) 0)
    else .error .capacityOverflow
  else .ok mem

/-- Decimal rendering of a cell value, as in `format!("{}", v)`. -/
def intStr (v : Int) : String := toString v

/-- The state produced by executing one instruction: tape, relative base,
remaining scripted input, output log, and program-counter increment. -/
structure ExecOut where
  mem : List Int
  rel : Nat
  ins : List Int
  outs : List String
  incr : Incr
deriving DecidableEq

/-- The "potentially increase memory size before ops" phase at the top of
`OpCode::exec`: for the five instructions with a write target, resolve the
target address and grow the tape if needed. -/
def preGrow (op : OpCode) (mem : List Int) (rel : Nat) :
    Except VmErr (List Int) :=
  match op with
  | .Add _ _ o | .Mul _ _ o | .Les _ _ o | .Eql _ _ o | .Ipt o =>
    match o.adr rel with
    | .error e => .error e
    | .ok a => growTo mem a
  | _ => .ok mem

/-- `OpCode::exec`: execute one decoded instruction against the tape,
relative base and I/O script, mirroring the day9 source including the
pre-grow phase and the order of reads on the (possibly grown) tape. -/
def OpCode.exec (op : OpCode) (mem0 : List Int) (rel : Nat)
    (ins : List Int) (outs : List String) : Except VmErr ExecOut :=
  match preGrow op mem0 rel with
  | .error e => .error e
  | .ok mem =>
    match op with
    | .Ext => .ok ⟨mem, rel, ins, outs, .Exit⟩
    | .Add r1 r2 o =>
      match o.adr rel with
      | .error e => .error e
      | .ok a =>
        .ok ⟨mem.set a (r1.val mem rel + r2.val mem rel), rel, ins, outs,
          .Offset 4⟩
    | .Mul r1 r2 o =>
      match o.adr rel with
      | .error e => .error e
      | .ok a =>
        .ok ⟨mem.set a (r1.val mem rel * r2.val mem rel), rel, ins, outs,
          .Offset 4⟩
    | .Ipt adr =>
      match adr.adr rel with
      | .error e => .error e
      | .ok a =>
        match ins with
        | [] => .error .inputExhausted
        | v :: rest => .ok ⟨mem.set a v, rel, rest, outs, .Offset 2⟩
    | .Opt o =>
      .ok ⟨mem, rel, ins, outs ++ [intStr (o.val mem rel)], .Offset 2⟩
    | .Jtr r1 jmp =>
      if r1.val mem rel ≠ 0 then
        .ok ⟨mem, rel, ins, outs, .Jump (usizeOfInt (jmp.val mem rel))⟩
      else .ok ⟨mem, rel, ins, outs, .Offset 3⟩
    | .Jfl r1 jmp =>
      if r1.val mem rel = 0 then
        .ok ⟨mem, rel, ins, outs, .Jump (usizeOfInt (jmp.val mem rel))⟩
      else .ok ⟨mem, rel, ins, outs, .Offset 3⟩
    | .Les r1 r2 o =>
      match o.adr rel with
      | .error e => .error e
      | .ok a =>
        .ok ⟨mem.set a (if r1.val mem rel < r2.val mem rel then 1 else 0),
          rel, ins, outs, .Offset 4⟩
    | .Eql r1 r2 o =>
      match o.adr rel with
      | .error e => .error e
      | .ok a =>
        .ok ⟨mem.set a (if r1.val mem rel = r2.val mem rel then 1 else 0),
          rel, ins, outs, .Offset 4⟩
    | .Crl off =>
      let res := isizeOfInt (isizeOfNat rel + isizeOfInt (off.val mem rel))
      if res < 0 then .error .negRelBase
      else .ok ⟨mem, res.toNat, ins, outs, .Offset 2⟩

/-- Is the instruction the adjust-relative-base instruction (opcode 9)? -/
def OpCode.isCrl : OpCode → Bool
  | .Crl _ => true
  | _ => false

/-- The fetch-decode-execute loop of `Program::run`, fuelled to stay total:
`.ok none` means fuel ran out while still running, `.ok (some (mem, outs))`
means the Halt opcode was reached with terminal tape `mem` and output log
`outs`, and `.error` is a fatal panic. -/
def runLoop : Nat → List Int → Nat → Nat → List Int → List String →
    Except VmErr (Option (List Int × List String))
  | 0, _, _, _, _, _ => .ok none
  | fuel + 1, mem, ctr, rel, ins, outs =>
    match OpCode.fromMem mem ctr with
    | .error e => .error e
    | .ok op =>
      match op.exec mem rel ins outs with
      | .error e => .error e
      | .ok r =>
        match r.incr with
        | .Exit => .ok (some (r.mem, r.outs))
        | .Offset n => runLoop fuel r.mem (ctr + n) r.rel r.ins r.outs
        | .Jump a => runLoop fuel r.mem a r.rel r.ins r.outs

/-- `Program::new` + `Program::run` with a scripted (`MockIo`) input queue:
counter and relative base start at 0, output log starts empty. -/
def Program.run (fuel : Nat) (mem : List Int) (ins : List Int) :
    Except VmErr (Option (List Int × List String)) :=
  runLoop fuel mem 0 0 ins []

/-- The quine-style relative-mode test program of day9. -/
def quineTape : List Int :=
  [109, 1, 204, -1, 1001, 100, 1, 100, 1008, 100, 16, 101, 1006, 101, 0, 99]

/-- Fuel monotonicity: once the loop reaches Halt within `f` steps, any
larger fuel bound produces the same halted result. -/
theorem runLoop_fuel_mono : ∀ (f f' : Nat), f ≤ f' →
    ∀ (mem : List Int) (ctr rel : Nat) (ins : List Int) (outs : List String)
      (r : List Int × List String),
      runLoop f mem ctr rel ins outs = .ok (some r) →
      runLoop f' mem ctr rel ins outs = .ok (some r) := by
  intro f
  induction f with
  | zero =>
    intro f' _ mem ctr rel ins outs r h
    simp [runLoop] at h
  | succ n ih =>
    intro f' hle mem ctr rel ins outs r h
    obtain ⟨k, rfl⟩ : ∃ k, f' = k + 1 := ⟨f' - 1, by omega⟩
    have hnk : n ≤ k := by omega
    rw [runLoop] at h ⊢
    cases hd : OpCode.fromMem mem ctr with
    | error e => rw [hd] at h; simp at h
    | ok op =>
      simp only [hd] at h ⊢
      cases he : op.exec mem rel ins outs with
      | error e => rw [he] at h; simp at h
      | ok res =>
        simp only [he] at h ⊢
        cases hi : res.incr with
        | Exit => simp only [hi] at h ⊢; exact h
        | Offset m => simp only [hi] at h ⊢; exact ih k hnk _ _ _ _ _ _ h
        | Jump a => simp only [hi] at h ⊢; exact ih k hnk _ _ _ _ _ _ h

/-- Two halted results of the loop from the same configuration agree,
whatever fuel each run was given. -/
theorem runLoop_halt_unique (f1 f2 : Nat) (mem : List Int) (ctr rel : Nat)
    (ins : List Int) (outs : List String) (r1 r2 : List Int × List String)
    (h1 : runLoop f1 mem ctr rel ins outs = .ok (some r1))
    (h2 : runLoop f2 mem ctr rel ins outs = .ok (some r2)) : r1 = r2 := by
  rcases Nat.le_total f1 f2 with hle | hle
  · have := runLoop_fuel_mono f1 f2 hle mem ctr rel ins outs r1 h1
    exact Option.some.inj (Except.ok.inj (this.symm.trans h2))
  · have := runLoop_fuel_mono f2 f1 hle mem ctr rel ins outs r2 h2
    exact (Option.some.inj (Except.ok.inj (this.symm.trans h1))).symm

/-- Auxiliary: every position of a zero-filled replicate block reads as 0. -/
lemma getD_replicate_zero :
    ∀ (k m : Nat), (List.replicate k (0 : Int)).getD m 0 = 0
  | 0, _ => by simp [List.getD]
  | k + 1, 0 => by simp [List.replicate]
  | k + 1, m + 1 => by simp [List.replicate, getD_replicate_zero k m]

/-- Claim C1: with an empty input script, running from tape `[1,0,0,0,99]`
halts with terminal tape exactly `[2,0,0,0,99]`; from `[2,3,0,3,99]` with
exactly `[2,3,0,6,99]`; and from `[1,1,1,4,99,5,6,0,99]` with exactly
`[30,1,1,4,2,5,6,0,99]` — bit-exact in every cell, and every halting run
(any fuel bound) produces exactly this result. -/
theorem C1_self_test_vectors :
    (Program.run 32 [1, 0, 0, 0, 99] [] = .ok (some ([2, 0, 0, 0, 99], [])) ∧
      ∀ f r, Program.run f [1, 0, 0, 0, 99] [] = .ok (some r) →
        r = ([2, 0, 0, 0, 99], [])) ∧
    (Program.run 32 [2, 3, 0, 3, 99] [] = .ok (some ([2, 3, 0, 6, 99], [])) ∧
      ∀ f r, Program.run f [2, 3, 0, 3, 99] [] = .ok (some r) →
        r = ([2, 3, 0, 6, 99], [])) ∧
    (Program.run 32 [1, 1, 1, 4, 99, 5, 6, 0, 99] [] =
        .ok (some ([30, 1, 1, 4, 2, 5, 6, 0, 99], [])) ∧
      ∀ f r, Program.run f [1, 1, 1, 4, 99, 5, 6, 0, 99] [] = .ok (some r) →
        r = ([30, 1, 1, 4, 2, 5, 6, 0, 99], [])) := by
  refine ⟨⟨by decide, ?_⟩, ⟨by decide, ?_⟩, ⟨by decide, ?_⟩⟩ <;> intro f r h
  · exact runLoop_halt_unique f 32 [1, 0, 0, 0, 99] 0 0 [] [] r
      ([2, 0, 0, 0, 99], []) h (by decide)
  · exact runLoop_halt_unique f 32 [2, 3, 0, 3, 99] 0 0 [] [] r
      ([2, 3, 0, 6, 99], []) h (by decide)
  · exact runLoop_halt_unique f 32 [1, 1, 1, 4, 99, 5, 6, 0, 99] 0 0 [] [] r
      ([30, 1, 1, 4, 2, 5, 6, 0, 99], []) h (by decide)

/-- Witness for C1: the universally quantified halting-uniqueness part of
the claim instantiated at fuel 32 for the first self-test tape. -/
theorem C1_witness :
    (([2, 0, 0, 0, 99] : List Int), ([] : List String)) =
      ([2, 0, 0, 0, 99], []) :=
  C1_self_test_vectors.1.2 32 ([2, 0, 0, 0, 99], []) (by decide)

/-- Claim C2: running the quine-style tape with an empty input script
terminates in Halt, and the output log is exactly the decimal strings of
the tape's own first 16 words, in order — 16 outputs, no more, no fewer.
The terminal tape is the original 16 words, 84 zero-filled growth cells,
and the loop counters 16 and 1 at addresses 100 and 101. -/
theorem C2_quine_outputs :
    quineTape.length = 16 ∧
    Program.run 200 quineTape [] =
      .ok (some (quineTape ++ List.replicate 84 0 ++ [16, 1],
        (quineTape.take 16).map intStr)) ∧
    (quineTape.take 16).map intStr =
      ["109", "1", "204", "-1", "1001", "100", "1", "100", "1008", "100",
       "16", "101", "1006", "101", "0", "99"] ∧
    ((quineTape.take 16).map intStr).length = 16 :=
  ⟨by decide, by decide, by decide, by decide⟩

/-- Claim C3: for every instruction word `w` and parameter position `p`,
the decoder extracts the addressing-mode digit as `w / 10^(2+p) % 10`,
mapping digit 0 to `Position`, 1 to `Immediate`, 2 to `Relative` (the raw
parameter word goes through the `as usize` / `as isize` cast its mode
dictates); and instruction word 1002 decodes to `Mul` with parameter modes
Positional, Immediate, Positional. -/
theorem C3_mode_extraction :
    (∀ (w p : Nat) (mem : List Int) (idx : Nat) (v : Int),
      fetchWord mem (idx + p) = .ok v →
        (w / 10 ^ (2 + p) % 10 = 0 →
          Mode.fromSpec (w / 100) mem idx p =
            .ok (.Position (usizeOfInt v))) ∧
        (w / 10 ^ (2 + p) % 10 = 1 →
          Mode.fromSpec (w / 100) mem idx p = .ok (.Immediate v)) ∧
        (w / 10 ^ (2 + p) % 10 = 2 →
          Mode.fromSpec (w / 100) mem idx p =
            .ok (.Relative (isizeOfInt v)))) ∧
    OpCode.fromMem [1002, 4, 3, 4, 33] 0 =
      .ok (.Mul (.Position 4) (.Immediate 3) (.Position 4)) := by
  constructor
  · intro w p mem idx v hf
    have key : w / 100 / 10 ^ p % 10 = w / 10 ^ (2 + p) % 10 := by
      rw [Nat.div_div_eq_div_mul, pow_add]
      norm_num
    refine ⟨?_, ?_, ?_⟩ <;> intro hd <;>
      simp [Mode.fromSpec, hf, key, hd]
  · decide

/-- Witness for C3: the general mode-extraction law applied to instruction
word 1002 at parameter position 1 (digit 1, Immediate). -/
theorem C3_witness :
    Mode.fromSpec (1002 / 100) [1002, 4, 3, 4, 33] 1 1 = .ok (.Immediate 3) :=
  (C3_mode_extraction.1 1002 1 [1002, 4, 3, 4, 33] 1 3 (by decide)).2.1
    (by decide)

/-- Counterexample for C4: not every beyond-end resolved write address is
grown and written.  On tape `[21101,1,2,-1,99]` the Add instruction's
write parameter is `Relative(-1)` at relative base 0, which resolves (by
the wrapping cast) to address `2^64 - 1`, far beyond the tape length — but
instead of growing and writing, `resize` panics (capacity overflow), so
the run is a fatal error and no write is performed. -/
theorem C4_counterexample :
    Mode.adr (.Relative (-1)) 0 = .ok 18446744073709551615 ∧
    VEC_CAP_MAX < 18446744073709551615 + 1 ∧
    Program.run 8 [21101, 1, 2, -1, 99] [] = .error .capacityOverflow :=
  ⟨by decide, by decide, by decide⟩

/-- Claim C4 (amended): a resolved address at or beyond the tape length
reads as 0 and reading never changes the tape (the Output instruction
returns the tape unchanged); a write target at or beyond the tape length
first grows the tape, zero-filled, to exactly address+1 and then the
write is performed — provided address+1 stays within the `Vec<i128>`
capacity limit; at or beyond that limit (in particular for every
wrapped-negative write address) the resize is a fatal capacity-overflow
panic and no write happens, and the Add write path propagates exactly the
grow's outcome. -/
theorem C4_amended_read_write :
    (∀ (mem : List Int) (a : Nat), mem.length ≤ a → readMem mem a = 0) ∧
    (∀ (o : Mode) (mem : List Int) (rel : Nat) (ins : List Int)
        (outs : List String),
      (OpCode.Opt o).exec mem rel ins outs =
        .ok ⟨mem, rel, ins, outs ++ [intStr (o.val mem rel)], .Offset 2⟩) ∧
    (∀ (mem : List Int) (a : Nat), mem.length ≤ a → a + 1 ≤ VEC_CAP_MAX →
      growTo mem a = .ok (mem ++ List.replicate (a + 1 - mem.length) 0) ∧
      (mem ++ List.replicate (a + 1 - mem.length) 0).length = a + 1 ∧
      (∀ j, mem.length ≤ j → j ≤ a →
        (mem ++ List.replicate (a + 1 - mem.length) 0).getD j 0 = 0)) ∧
    (∀ (mem : List Int) (a : Nat), mem.length ≤ a → VEC_CAP_MAX < a + 1 →
      growTo mem a = .error .capacityOverflow) ∧
    (∀ (r1 r2 o : Mode) (mem m : List Int) (rel a : Nat) (ins : List Int)
        (outs : List String), o.adr rel = .ok a → growTo mem a = .ok m →
      (OpCode.Add r1 r2 o).exec mem rel ins outs =
        .ok ⟨m.set a (r1.val m rel + r2.val m rel), rel, ins, outs,
          .Offset 4⟩) ∧
    (∀ (r1 r2 o : Mode) (mem : List Int) (rel a : Nat) (e : VmErr)
        (ins : List Int) (outs : List String),
      o.adr rel = .ok a → growTo mem a = .error e →
      (OpCode.Add r1 r2 o).exec mem rel ins outs = .error e) := by
  refine ⟨?_, ?_, ?_, ?_, ?_, ?_⟩
  · intro mem a h
    rw [readMem, if_pos h]
  · intro o mem rel ins outs
    simp [OpCode.exec, preGrow]
  · intro mem a h hcap
    refine ⟨by rw [growTo, if_pos h, if_pos hcap], ?_, ?_⟩
    · simp
      omega
    · intro j hj hja
      rw [List.getD_append_right _ _ _ _ hj, getD_replicate_zero]
  · intro mem a h hcap
    rw [growTo, if_pos h, if_neg (by omega)]
  · intro r1 r2 o mem m rel a ins outs hadr hg
    cases o with
    | Position p =>
      simp [Mode.adr] at hadr
      subst hadr
      simp [OpCode.exec, preGrow, Mode.adr, hg]
    | Relative off =>
      simp [Mode.adr] at hadr
      subst hadr
      simp [OpCode.exec, preGrow, Mode.adr, hg]
    | Immediate v => simp [Mode.adr] at hadr
  · intro r1 r2 o mem rel a e ins outs hadr hg
    cases o with
    | Position p =>
      simp [Mode.adr] at hadr
      subst hadr
      simp [OpCode.exec, preGrow, Mode.adr, hg]
    | Relative off =>
      simp [Mode.adr] at hadr
      subst hadr
      simp [OpCode.exec, preGrow, Mode.adr, hg]
    | Immediate v => simp [Mode.adr] at hadr

/-- Witness for C4 (amended): beyond-end read of the empty tape returns 0;
growing the empty tape for write address 3 succeeds with length 4; the Add
write path on the empty tape is grow-then-set; and growing for the
wrapped-negative address `2^64 - 1` is the fatal capacity-overflow
error. -/
theorem C4_amended_witness :
    readMem [] 3 = 0 ∧
    growTo [] 3 = .ok ([] ++ List.replicate 4 0) ∧
    (OpCode.Add (.Immediate 1) (.Immediate 2) (.Position 0)).exec [] 0 [] [] =
      .ok ⟨(List.replicate 1 0).set 0
          ((Mode.Immediate 1).val (List.replicate 1 0) 0 +
            (Mode.Immediate 2).val (List.replicate 1 0) 0),
        0, [], [], .Offset 4⟩ ∧
    growTo [] 18446744073709551615 = .error .capacityOverflow :=
  ⟨C4_amended_read_write.1 [] 3 (by decide),
   (C4_amended_read_write.2.2.1 [] 3 (by decide) (by decide)).1,
   C4_amended_read_write.2.2.2.2.1 (.Immediate 1) (.Immediate 2)
     (.Position 0) [] (List.replicate 1 0) 0 0 [] [] (by decide) (by decide),
   C4_amended_read_write.2.2.2.1 [] 18446744073709551615 (by decide)
     (by decide)⟩

/-- Claim C5: an Immediate parameter is never a valid write target — for
each write-instruction (Add, Mul, LessThan, Equals, Input) with an
Immediate output parameter, address resolution and hence the whole
instruction is the fatal error `immediateWriteTarget`, and no memory state
is produced. -/
theorem C5_immediate_write_fatal :
    (∀ (v : Int) (rel : Nat),
      Mode.adr (.Immediate v) rel = .error .immediateWriteTarget) ∧
    (∀ (r1 r2 : Mode) (v : Int) (mem : List Int) (rel : Nat)
        (ins : List Int) (outs : List String),
      (OpCode.Add r1 r2 (.Immediate v)).exec mem rel ins outs =
          .error .immediateWriteTarget ∧
      (OpCode.Mul r1 r2 (.Immediate v)).exec mem rel ins outs =
          .error .immediateWriteTarget ∧
      (OpCode.Les r1 r2 (.Immediate v)).exec mem rel ins outs =
          .error .immediateWriteTarget ∧
      (OpCode.Eql r1 r2 (.Immediate v)).exec mem rel ins outs =
          .error .immediateWriteTarget) ∧
    (∀ (v : Int) (mem : List Int) (rel : Nat) (ins : List Int)
        (outs : List String),
      (OpCode.Ipt (.Immediate v)).exec mem rel ins outs =
          .error .immediateWriteTarget) := by
  refine ⟨fun v rel => rfl, ?_, ?_⟩
  · intro r1 r2 v mem rel ins outs
    refine ⟨?_, ?_, ?_, ?_⟩ <;> simp [OpCode.exec, preGrow, Mode.adr]
  · intro v mem rel ins outs
    simp [OpCode.exec, preGrow, Mode.adr]

/-- Counterexample for C6: the fatal decode diagnostic identifies the
offending opcode value but not its position — decoding the unknown opcode
77 at position 0 of one tape and at position 5 of another produces the
very same error value, so the diagnostic cannot identify the position. -/
theorem C6_counterexample :
    OpCode.fromMem [77] 0 = .error (.badOpcode 77) ∧
    OpCode.fromMem [99, 99, 99, 99, 99, 77] 5 = .error (.badOpcode 77) ∧
    OpCode.fromMem [77] 0 = OpCode.fromMem [99, 99, 99, 99, 99, 77] 5 :=
  ⟨by decide, by decide, by decide⟩

/-- Claim C6 (amended): an opcode outside the table {1,..,9,99} or an
addressing-mode digit other than 0, 1, 2 is a fatal decode error carrying
the offending value (though not the position), and a decode error stops
the run loop immediately — the instruction is never silently executed or
skipped. -/
theorem C6_amended_decode_error :
    (∀ (mem : List Int) (idx : Nat) (w : Int), fetchWord mem idx = .ok w →
      w.tmod 100 ∉ ([1, 2, 3, 4, 5, 6, 7, 8, 9, 99] : List Int) →
      OpCode.fromMem mem idx = .error (.badOpcode (w.tmod 100))) ∧
    (∀ (spec : Nat) (mem : List Int) (idx off : Nat) (v : Int),
      fetchWord mem (idx + off) = .ok v →
      spec / 10 ^ off % 10 ≠ 0 → spec / 10 ^ off % 10 ≠ 1 →
      spec / 10 ^ off % 10 ≠ 2 →
      Mode.fromSpec spec mem idx off =
        .error (.badModeDigit (spec / 10 ^ off % 10))) ∧
    (∀ (fuel : Nat) (mem : List Int) (ctr rel : Nat) (ins : List Int)
        (outs : List String) (e : VmErr),
      OpCode.fromMem mem ctr = .error e →
      runLoop (fuel + 1) mem ctr rel ins outs = .error e) := by
  refine ⟨?_, ?_, ?_⟩
  · intro mem idx w hf hn
    simp at hn
    obtain ⟨h1, h2, h3, h4, h5, h6, h7, h8, h9, h99⟩ := hn
    simp [OpCode.fromMem, hf, h1, h2, h3, h4, h5, h6, h7, h8, h9, h99]
  · intro spec mem idx off v hf h0 h1 h2
    simp [Mode.fromSpec, hf, h0, h1, h2]
  · intro fuel mem ctr rel ins outs e hd
    rw [runLoop, hd]

/-- Witness for C6 (amended): unknown opcode 42 is reported as a fatal
decode error carrying the value 42. -/
theorem C6_amended_witness :
    OpCode.fromMem [42] 0 = .error (.badOpcode 42) :=
  C6_amended_decode_error.1 [42] 0 42 (by decide) (by decide)

/-- Counterexample for C7: a negative resolved read address is NOT a fatal
error.  On tape `[204,-1,99]` with relative base 0 the Output parameter
resolves to the mathematically negative address -1, yet `Mode::val`
returns 0 (the cast wraps to a huge in-range index, far beyond the tape
length) and the whole run halts normally, outputting "0". -/
theorem C7_counterexample :
    isizeOfNat 0 + (-1 : Int) < 0 ∧
    Mode.val (.Relative (-1)) [204, -1, 99] 0 = 0 ∧
    Program.run 8 [204, -1, 99] [] = .ok (some ([204, -1, 99], ["0"])) :=
  ⟨by decide, by decide, by decide⟩

/-- Claim C7 (amended): every index actually used to access the tape is
non-negative because address resolution wraps (two's-complement casts),
and the two directions differ: a mathematically negative resolved address
used for READING lands at or beyond the tape length and returns 0 with no
error, while a mathematically negative resolved address used for WRITING
is fatal — the wrapped address exceeds the `Vec<i128>` capacity limit, so
the pre-write resize panics and no write occurs; in addition the
adjust-relative-base instruction explicitly checks its result for
negativity and treats a negative relative base as fatal. -/
theorem C7_amended_resolution :
    (∀ (mem : List Int) (rel : Nat) (off : Int),
      rel < 9223372036854775808 →
      mem.length ≤ 9223372036854775808 →
      -9223372036854775808 ≤ off →
      isizeOfNat rel + off < 0 →
      Mode.val (.Relative off) mem rel = 0) ∧
    (∀ (r1 r2 : Mode) (off : Int) (mem : List Int) (rel : Nat)
        (ins : List Int) (outs : List String),
      rel < 9223372036854775808 →
      mem.length ≤ 9223372036854775808 →
      -9223372036854775808 ≤ off →
      isizeOfNat rel + off < 0 →
      (OpCode.Add r1 r2 (.Relative off)).exec mem rel ins outs =
        .error .capacityOverflow) ∧
    (∀ (off : Mode) (mem : List Int) (rel : Nat) (ins : List Int)
        (outs : List String),
      isizeOfInt (isizeOfNat rel + isizeOfInt (off.val mem rel)) < 0 →
      (OpCode.Crl off).exec mem rel ins outs = .error .negRelBase) := by
  refine ⟨?_, ?_, ?_⟩
  · intro mem rel off h1 h2 h3 h4
    simp only [Mode.val, readMem, usizeOfInt, isizeOfNat, isizeOfInt,
      USIZE_MOD, ISIZE_HALF] at *
    split
    · rfl
    · omega
  · intro r1 r2 off mem rel ins outs h1 h2 h3 h4
    have hbig : 9223372036854775808 ≤ usizeOfInt (isizeOfNat rel + off) := by
      simp only [usizeOfInt, isizeOfNat, isizeOfInt, USIZE_MOD,
        ISIZE_HALF] at *
      omega
    have hga : growTo mem (usizeOfInt (isizeOfNat rel + off)) =
        .error .capacityOverflow := by
      rw [growTo, if_pos (by omega),
        if_neg (by simp only [VEC_CAP_MAX]; omega)]
    simp [OpCode.exec, preGrow, Mode.adr, hga]
  · intro off mem rel ins outs h
    simp [OpCode.exec, preGrow, h]

/-- Witness for C7 (amended): on the empty tape with relative base 0, the
negative resolved address -1 reads as 0, and an Add writing through the
negative resolved address -1 is the fatal capacity-overflow error. -/
theorem C7_amended_witness :
    Mode.val (.Relative (-1)) [] 0 = 0 ∧
    (OpCode.Add (.Immediate 0) (.Immediate 0) (.Relative (-1))).exec
        [] 0 [] [] = .error .capacityOverflow :=
  ⟨C7_amended_resolution.1 [] 0 (-1) (by decide) (by decide) (by decide)
     (by decide),
   C7_amended_resolution.2.1 (.Immediate 0) (.Immediate 0) (-1) [] 0 [] []
     (by decide) (by decide) (by decide) (by decide)⟩

/-- Claim C8: the relative base is zero at the start of every run (the run
entry point passes 0 into the loop), and every successfully executed
instruction other than adjust-relative-base (opcode 9, `Crl`) leaves the
relative base unchanged. -/
theorem C8_relative_base :
    (∀ (fuel : Nat) (mem ins : List Int),
      Program.run fuel mem ins = runLoop fuel mem 0 0 ins []) ∧
    (∀ (op : OpCode) (mem : List Int) (rel : Nat) (ins : List Int)
        (outs : List String) (res : ExecOut),
      op.isCrl = false → op.exec mem rel ins outs = .ok res →
      res.rel = rel) := by
  constructor
  · intro fuel mem ins
    rfl
  · intro op mem rel ins outs res hcrl hex
    cases op <;> simp only [OpCode.isCrl] at hcrl <;>
      simp only [OpCode.exec, preGrow] at hex <;>
      (try (repeat' split at hex)) <;> simp_all <;> (try rw [← hex])

/-- Witness for C8: executing the Halt instruction leaves the relative
base at 0. -/
theorem C8_witness : (ExecOut.mk [99] 0 [] [] Incr.Exit).rel = 0 :=
  C8_relative_base.2 .Ext [99] 0 [] [] (ExecOut.mk [99] 0 [] [] Incr.Exit)
    (by decide) (by decide)

/-- Claim C9: the engine is deterministic — two runs from the same initial
tape with the same scripted input queue that both terminate in Halt
produce identical terminal tape contents and identical output logs,
whatever fuel bound each run was given. -/
theorem C9_determinism :
    ∀ (mem ins : List Int) (f1 f2 : Nat) (r1 r2 : List Int × List String),
      Program.run f1 mem ins = .ok (some r1) →
      Program.run f2 mem ins = .ok (some r2) →
      r1.1 = r2.1 ∧ r1.2 = r2.2 := by
  intro mem ins f1 f2 r1 r2 h1 h2
  have h := runLoop_halt_unique f1 f2 mem 0 0 ins [] r1 r2 h1 h2
  exact ⟨congrArg Prod.fst h, congrArg Prod.snd h⟩

/-- Witness for C9: two runs of the trivial halting program with different
fuel bounds agree on tape and outputs. -/
theorem C9_witness :
    ((([99] : List Int), ([] : List String)).1 =
      (([99] : List Int), ([] : List String)).1) ∧
    ((([99] : List Int), ([] : List String)).2 =
      (([99] : List Int), ([] : List String)).2) :=
  C9_determinism [99] [] 1 2 ([99], []) ([99], []) (by decide) (by decide)

/-- Claim C10: instruction decoding fetches the instruction word and its
raw parameter words by direct indexing — any such fetch at or beyond the
tape length is a fatal out-of-bounds access, not a read of 0 (shown both
in general for the instruction word and concretely for tape `[1]`, whose
Add instruction needs parameter words beyond the end); the
return-0-beyond-length default applies only to resolved operand reads. -/
theorem C10_direct_fetch :
    (∀ (mem : List Int) (idx : Nat), mem.length ≤ idx →
      fetchWord mem idx = .error (.oobFetch idx)) ∧
    (∀ (mem : List Int) (idx : Nat), mem.length ≤ idx →
      OpCode.fromMem mem idx = .error (.oobFetch idx)) ∧
    OpCode.fromMem [1] 0 = .error (.oobFetch 1) ∧
    (∀ (mem : List Int) (idx : Nat), mem.length ≤ idx →
      readMem mem idx = 0) := by
  have hf : ∀ (mem : List Int) (idx : Nat), mem.length ≤ idx →
      fetchWord mem idx = .error (.oobFetch idx) := by
    intro mem idx h
    rw [fetchWord, if_neg (by omega)]
  refine ⟨hf, ?_, by decide, ?_⟩
  · intro mem idx h
    unfold OpCode.fromMem
    rw [hf mem idx h]
  · intro mem idx h
    rw [readMem, if_pos h]

/-- Witness for C10: fetching the instruction word from the empty tape is
an out-of-bounds fetch error. -/
theorem C10_witness :
    fetchWord [] 0 = .error (.oobFetch 0) :=
  C10_direct_fetch.1 [] 0 (by decide)
